import Mathlib

/-!
Shallow embedding of the `library-api` Go service (models/book.go, db/db.go,
handlers/book_handler.go) together with the MariaDB table semantics that the
SQL statements in db/db.go rely on (migrations: `title VARCHAR(255) NOT NULL`,
`author VARCHAR(255) NOT NULL`, `updated_at TIMESTAMP`, utf8mb4_unicode_ci
case-insensitive collation, strict SQL mode of MariaDB 10.11).

Strings are `List Char`; timestamps are `Nat` clock values, the current clock
value being passed explicitly where the SQL uses `CURRENT_TIMESTAMP`.  The
database is a list of rows plus the auto-increment counter and a counter of
executed SQL write statements (INSERT/UPDATE/DELETE).
-/

namespace LibraryAPI

/-- models/book.go: `Book`. -/
structure Book where
  id : Int
  title : List Char
  author : List Char
  publishedYear : Int
  available : Bool
  createdAt : Nat
  updatedAt : Nat
deriving Repr, DecidableEq

/-- models/book.go: `CreateBookRequest` (pointer field `Available` as `Option`). -/
structure CreateBookRequest where
  title : List Char
  author : List Char
  publishedYear : Int
  available : Option Bool
deriving Repr, DecidableEq

/-- models/book.go: `UpdateBookRequest` (all fields optional pointers). -/
structure UpdateBookRequest where
  title : Option (List Char)
  author : Option (List Char)
  publishedYear : Option Int
  available : Option Bool
deriving Repr, DecidableEq

/-- The relational store backing the service: the `books` table rows (in
insertion order), the AUTO_INCREMENT counter, and how many SQL write
statements have been executed against the table. -/
structure DBState where
  books : List Book
  nextId : Int
  writeCount : Nat
deriving Repr, DecidableEq

/-- models/book.go: `Pagination`. -/
structure Pagination where
  page : Nat
  limit : Nat
  total : Nat
  totalPages : Nat
deriving Repr, DecidableEq

/-- models/book.go: `PaginatedResponse` (data is the page of books). -/
structure PaginatedResponse where
  success : Bool
  data : List Book
  pagination : Pagination
deriving Repr, DecidableEq

/-- models/book.go: `APIResponse`; `data` is the optional book payload,
`error` and `message` the optional strings. -/
structure APIResponse where
  success : Bool
  data : Option Book
  error : Option (List Char)
  message : Option (List Char)
deriving Repr, DecidableEq

/-- Go `strings.TrimSpace`: drop leading and trailing whitespace. -/
def trimChars (s : List Char) : List Char :=
  ((s.dropWhile Char.isWhitespace).reverse.dropWhile Char.isWhitespace).reverse

/-- Case-insensitive character comparison, modelling the utf8mb4_unicode_ci
collation used by the `books` table. -/
def charEqCI (a b : Char) : Bool := a.toLower == b.toLower

/-- A single-character pattern step (`_`): consume one character and
continue with `k`. -/
def matchOne (k : List Char → Bool) : List Char → Bool
  | [] => false
  | _ :: s2 => k s2

/-- A literal pattern character: consume one character matching `p`
case-insensitively and continue with `k`. -/
def matchLit (p : Char) (k : List Char → Bool) : List Char → Bool
  | [] => false
  | c :: s2 => charEqCI p c && k s2

/-- SQL `LIKE` pattern matching against a string, under the case-insensitive
collation of the `books` table: `%` matches any (possibly empty) sequence —
rendered as "some split point works" — `_` matches any single character,
backslash escapes the following pattern character, and every other pattern
character matches itself case-insensitively. -/
def likeMatch : List Char → List Char → Bool
  | [], s => s.isEmpty
  | '%' :: ps, s => (List.range (s.length + 1)).any (fun i => likeMatch ps (s.drop i))
  | '_' :: ps, s => matchOne (likeMatch ps) s
  | '\\' :: pe :: ps, s => matchLit pe (likeMatch ps) s
  | ['\\'], s => s = ['\\']
  | p :: ps, s => matchLit p (likeMatch ps) s

/-- db/db.go `SearchBooks`: the LIKE pattern "%" + query + "%". -/
def likePattern (q : List Char) : List Char := '%' :: (q ++ ['%'])

/-- db/db.go `SearchBooks` WHERE clause: `title LIKE ? OR author LIKE ?`. -/
def bookMatches (q : List Char) (b : Book) : Bool :=
  likeMatch (likePattern q) b.title || likeMatch (likePattern q) b.author

/-- The set of rows matched by the search WHERE clause (used both by the
COUNT(*) query and the page query of `SearchBooks`). -/
def matchedSet (db : DBState) (q : List Char) : List Book :=
  db.books.filter (bookMatches q)

/-- Ordering relation of `ORDER BY created_at DESC`. -/
def byCreatedDesc (a b : Book) : Prop := b.createdAt ≤ a.createdAt

instance : DecidableRel byCreatedDesc := fun a b => Nat.decLe b.createdAt a.createdAt

instance : IsTotal Book byCreatedDesc := ⟨fun a b => Nat.le_total b.createdAt a.createdAt⟩

instance : IsTrans Book byCreatedDesc := ⟨fun _ _ _ h1 h2 => Nat.le_trans h2 h1⟩

/-- Sorting of a row set by `ORDER BY created_at DESC`. -/
def sortByCreatedDesc (l : List Book) : List Book := List.insertionSort byCreatedDesc l

/-- db/db.go `GetBookByID`: `SELECT ... FROM books WHERE id = ?`; `nil` row
(sql.ErrNoRows) becomes `none`. -/
def getBookByID (db : DBState) (id : Int) : Option Book :=
  db.books.find? (fun b => b.id == id)

/-- The VARCHAR(255) column constraint of `title` and `author` (strict SQL
mode rejects longer values with an error). -/
def fitsColumn (s : List Char) : Bool := s.length ≤ 255

/-- db/db.go `CreateBook`'s INSERT statement: under strict mode it errors when
a string exceeds its VARCHAR(255) column, otherwise appends a row whose
`created_at` and `updated_at` both take the insert-time CURRENT_TIMESTAMP
defaults and returns the auto-assigned id. -/
def sqlInsertBook (db : DBState) (title author : List Char) (year : Int)
    (avail : Bool) (now : Nat) : Except Unit (Int × DBState) :=
  if fitsColumn title && fitsColumn author then
    Except.ok (db.nextId,
      { books := db.books ++
          [{ id := db.nextId
             title := title
             author := author
             publishedYear := year
             available := avail
             createdAt := now
             updatedAt := now }],
        nextId := db.nextId + 1,
        writeCount := db.writeCount + 1 })
  else
    Except.error ()

/-- db/db.go `CreateBook`: availability defaults to true, INSERT, then
re-read the stored row via `GetBookByID`. -/
def dbCreateBook (db : DBState) (req : CreateBookRequest) (now : Nat) :
    Except Unit (Option Book × DBState) :=
  match sqlInsertBook db req.title req.author req.publishedYear
      (req.available.getD true) now with
  | Except.error e => Except.error e
  | Except.ok (id, db2) => Except.ok (getBookByID db2 id, db2)

/-- Whether the dynamic SET clause of db/db.go `UpdateBook` is non-empty
(`len(updates) > 0`). -/
def hasUpdates (req : UpdateBookRequest) : Bool :=
  req.title.isSome || req.author.isSome || req.publishedYear.isSome || req.available.isSome

/-- Effect of the dynamic `UPDATE books SET ..., updated_at = CURRENT_TIMESTAMP
WHERE id = ?` statement on one row: supplied fields take the supplied values,
`updated_at` takes the statement-time CURRENT_TIMESTAMP. -/
def applyUpdate (b : Book) (req : UpdateBookRequest) (now : Nat) : Book :=
  { b with
    title := req.title.getD b.title,
    author := req.author.getD b.author,
    publishedYear := req.publishedYear.getD b.publishedYear,
    available := req.available.getD b.available,
    updatedAt := now }

/-- The VARCHAR(255) constraint on the strings supplied by an update. -/
def updFits (req : UpdateBookRequest) : Bool :=
  (match req.title with | some t => fitsColumn t | none => true) &&
  (match req.author with | some a => fitsColumn a | none => true)

/-- The UPDATE statement issued by db/db.go `UpdateBook`: errors under strict
mode when a supplied string exceeds its column, otherwise rewrites every row
whose id matches. -/
def sqlUpdateBook (db : DBState) (id : Int) (req : UpdateBookRequest) (now : Nat) :
    Except Unit DBState :=
  if updFits req then
    Except.ok
      { books := db.books.map (fun b => if b.id == id then applyUpdate b req now else b),
        nextId := db.nextId,
        writeCount := db.writeCount + 1 }
  else
    Except.error ()

/-- db/db.go `UpdateBook`: re-read to confirm existence (`none` result when
absent), return the existing row unchanged when no field is supplied, else
execute the dynamic UPDATE and re-read the row. -/
def dbUpdateBook (db : DBState) (id : Int) (req : UpdateBookRequest) (now : Nat) :
    Except Unit (Option Book × DBState) :=
  match getBookByID db id with
  | none => Except.ok (none, db)
  | some existing =>
    if hasUpdates req then
      match sqlUpdateBook db id req now with
      | Except.error e => Except.error e
      | Except.ok db2 => Except.ok (getBookByID db2 id, db2)
    else
      Except.ok (some existing, db)

/-- Result of db/db.go `DeleteBook`: success with the new state, or the
sql.ErrNoRows signal. -/
inductive DeleteResult where
  | ok (db : DBState)
  | notFound
deriving Repr, DecidableEq

/-- db/db.go `DeleteBook`: re-read to confirm existence (sql.ErrNoRows when
absent) then `DELETE FROM books WHERE id = ?`. -/
def dbDeleteBook (db : DBState) (id : Int) : DeleteResult :=
  match getBookByID db id with
  | none => DeleteResult.notFound
  | some _ =>
    DeleteResult.ok
      { books := db.books.filter (fun b => !(b.id == id)),
        nextId := db.nextId,
        writeCount := db.writeCount + 1 }

/-- db/db.go `GetBooks`: COUNT(*) of all rows, then the page
`ORDER BY created_at DESC LIMIT limit OFFSET (page-1)*limit`. -/
def dbGetBooks (db : DBState) (page limit : Nat) : List Book × Nat :=
  let total := db.books.length
  let offset := (page - 1) * limit
  (((sortByCreatedDesc db.books).drop offset).take limit, total)

/-- db/db.go `SearchBooks`: COUNT(*) of the rows matching
`title LIKE %q% OR author LIKE %q%`, then the matching page ordered by
`created_at DESC`. -/
def dbSearchBooks (db : DBState) (q : List Char) (page limit : Nat) :
    List Book × Nat :=
  let matched := matchedSet db q
  let total := matched.length
  let offset := (page - 1) * limit
  (((sortByCreatedDesc matched).drop offset).take limit, total)

/-- handlers/book_handler.go `GetBooks`: effective page number. `pageArg` is
the parse result of the `page` query parameter (`none` when the parameter is
absent or not an integer). Values ≤ 0 keep the default 1. -/
def effPage (pageArg : Option Int) : Nat :=
  match pageArg with
  | some p => if p > 0 then p.toNat else 1
  | none => 1

/-- handlers/book_handler.go `GetBooks`: effective limit; values outside
(0, 100] keep the default 10. -/
def effLimit (limitArg : Option Int) : Nat :=
  match limitArg with
  | some l => if l > 0 && l ≤ 100 then l.toNat else 10
  | none => 10

/-- The page count `int(math.Ceil(float64(total) / float64(limit)))` of
handlers/book_handler.go, as exact natural ceiling division (the float64
computation is exact for every count this service can hold). -/
def natCeilDiv (a b : Nat) : Nat := (a + b - 1) / b

/-- handlers/book_handler.go `GetBooks`: parse parameters, search when the
trimmed `q` is non-empty else list, and build the paginated envelope.
Returns (status, response). -/
def handlerGetBooks (db : DBState) (pageArg limitArg : Option Int)
    (qArg : List Char) : Nat × PaginatedResponse :=
  let page := effPage pageArg
  let limit := effLimit limitArg
  let q := trimChars qArg
  let r := if q.isEmpty then dbGetBooks db page limit else dbSearchBooks db q page limit
  (200,
   { success := true,
     data := r.1,
     pagination :=
       { page := page, limit := limit, total := r.2,
         totalPages := natCeilDiv r.2 limit } })

/-- handlers/book_handler.go `sendErrorResponse`. -/
def errResp (msg : List Char) : APIResponse :=
  { success := false, data := none, error := some msg, message := none }

/-- handlers/book_handler.go `GetBook`: `idArg` is the parse result of the
path id (`none` when not an integer). -/
def handlerGetBook (db : DBState) (idArg : Option Int) : Nat × APIResponse :=
  match idArg with
  | none => (400, errResp (String.toList "Invalid book ID"))
  | some id =>
    match getBookByID db id with
    | none => (404, errResp (String.toList "Book not found"))
    | some b => (200, { success := true, data := some b, error := none, message := none })

/-- handlers/book_handler.go `CreateBook`: `body` is the decoded JSON payload
(`none` when decoding fails).  Validation in source order, then trimming,
then the storage call.  Returns (status, response, new state). -/
def handlerCreateBook (db : DBState) (body : Option CreateBookRequest) (now : Nat) :
    Nat × APIResponse × DBState :=
  match body with
  | none => (400, errResp (String.toList "Invalid JSON payload"), db)
  | some req0 =>
    if (trimChars req0.title).isEmpty then
      (400, errResp (String.toList "Title is required"), db)
    else if (trimChars req0.author).isEmpty then
      (400, errResp (String.toList "Author is required"), db)
    else if req0.publishedYear < 1000 || req0.publishedYear > 2100 then
      (400, errResp (String.toList "Published year must be between 1000 and 2100"), db)
    else
      match dbCreateBook db
          { req0 with title := trimChars req0.title, author := trimChars req0.author }
          now with
      | Except.error _ =>
        (500, errResp (String.toList "Failed to create book"), db)
      | Except.ok (bk, db2) =>
        (201,
         { success := true, data := bk, error := none,
           message := some (String.toList "Book created successfully") },
         db2)

/-- handlers/book_handler.go `UpdateBook`: validate the id and each supplied
field (trimming supplied strings), call the storage update, 404 on the
missing-row signal. -/
def handlerUpdateBook (db : DBState) (idArg : Option Int)
    (body : Option UpdateBookRequest) (now : Nat) : Nat × APIResponse × DBState :=
  match idArg with
  | none => (400, errResp (String.toList "Invalid book ID"), db)
  | some id =>
    match body with
    | none => (400, errResp (String.toList "Invalid JSON payload"), db)
    | some req0 =>
      if (match req0.title with | some t => (trimChars t).isEmpty | none => false) then
        (400, errResp (String.toList "Title cannot be empty"), db)
      else if (match req0.author with | some a => (trimChars a).isEmpty | none => false) then
        (400, errResp (String.toList "Author cannot be empty"), db)
      else if (match req0.publishedYear with
               | some y => y < 1000 || y > 2100
               | none => false) then
        (400, errResp (String.toList "Published year must be between 1000 and 2100"), db)
      else
        match dbUpdateBook db id
            { req0 with title := req0.title.map trimChars,
                        author := req0.author.map trimChars }
            now with
        | Except.error _ =>
          (500, errResp (String.toList "Failed to update book"), db)
        | Except.ok (none, db2) =>
          (404, errResp (String.toList "Book not found"), db2)
        | Except.ok (some bk, db2) =>
          (200,
           { success := true, data := some bk, error := none,
             message := some (String.toList "Book updated successfully") },
           db2)

/-- handlers/book_handler.go `DeleteBook`: 404 on the sql.ErrNoRows signal,
otherwise a bare success message without data payload. -/
def handlerDeleteBook (db : DBState) (idArg : Option Int) : Nat × APIResponse × DBState :=
  match idArg with
  | none => (400, errResp (String.toList "Invalid book ID"), db)
  | some id =>
    match dbDeleteBook db id with
    | DeleteResult.notFound => (404, errResp (String.toList "Book not found"), db)
    | DeleteResult.ok db2 =>
      (200,
       { success := true, data := none, error := none,
         message := some (String.toList "Book deleted successfully") },
       db2)

/-- Case-insensitive "starts with": `ciStartsWith q s` holds when `s` begins
with `q` up to case.  Reference predicate for the spec's "contains q
(case-insensitive substring)" wording. -/
def ciStartsWith : List Char → List Char → Bool
  | [], _ => true
  | _ :: _, [] => false
  | c :: q, d :: s => charEqCI c d && ciStartsWith q s

/-- Case-insensitive substring test: some suffix of `hay` starts with
`needle` up to case.  Reference predicate for the spec's "title contains q
(case-insensitive substring)". -/
def ciContains (hay needle : List Char) : Bool :=
  match hay with
  | [] => ciStartsWith needle []
  | d :: t => ciStartsWith needle (d :: t) || ciContains t needle

/-- A character with special meaning inside a SQL LIKE pattern. -/
def isWildcard (c : Char) : Bool := c = '%' || c = '_' || c = '\\'

/-- A query string free of LIKE metacharacters. -/
def noWildcard (q : List Char) : Bool := q.all (fun c => !(isWildcard c))

/-- spec.md §3: a well-formed stored record has a non-empty title and author
of at most 255 characters each. -/
def goodBook (b : Book) : Prop :=
  b.title ≠ [] ∧ b.title.length ≤ 255 ∧ b.author ≠ [] ∧ b.author.length ≤ 255

/-- All stored rows are well-formed. -/
def goodDB (db : DBState) : Prop := ∀ b ∈ db.books, goodBook b

/-- Concrete fixture: a stored book. -/
def bookW : Book :=
  { id := 1, title := ['F', 'o', 'o'], author := ['B', 'a', 'r'],
    publishedYear := 2020, available := true, createdAt := 3, updatedAt := 5 }

/-- Concrete fixture: a one-row database. -/
def dbW : DBState := { books := [bookW], nextId := 2, writeCount := 0 }

/-- Concrete fixture: the update request supplying no fields. -/
def emptyUpd : UpdateBookRequest :=
  { title := none, author := none, publishedYear := none, available := none }

/-- Concrete fixture: an update request supplying only `available`. -/
def availUpd : UpdateBookRequest :=
  { title := none, author := none, publishedYear := none, available := some false }

/-- Concrete fixture: a creation request with padded title. -/
def createW : CreateBookRequest :=
  { title := [' ', 'F', 'o', 'o'], author := ['B', 'a', 'r'],
    publishedYear := 2020, available := none }

/-- Concrete fixture: the empty database. -/
def emptyDB : DBState := { books := [], nextId := 1, writeCount := 0 }

/-! ### LIKE-pattern lemmas -/

theorem likeMatch_single_percent : ∀ s : List Char, likeMatch ['%'] s = true := by
  intro s
  simp only [likeMatch, List.any_eq_true]
  refine ⟨s.length, List.mem_range.mpr (Nat.lt_succ_self _), ?_⟩
  simp [likeMatch]

theorem likeMatch_percent_head (ps s : List Char) (h : likeMatch ps s = true) :
    likeMatch ('%' :: ps) s = true := by
  simp only [likeMatch, List.any_eq_true]
  exact ⟨0, List.mem_range.mpr (Nat.succ_pos _), by simpa using h⟩

theorem noWildcard_cons {c : Char} {q : List Char} (h : noWildcard (c :: q) = true) :
    ¬ c = '%' ∧ ¬ c = '_' ∧ ¬ c = '\\' ∧ noWildcard q = true := by
  simp only [noWildcard, List.all_cons, Bool.and_eq_true, isWildcard] at h
  obtain ⟨h1, h2⟩ := h
  simp only [noWildcard]
  simp at h1
  refine ⟨?_, ?_, ?_, h2⟩ <;> tauto

theorem likeMatch_literal : ∀ (q : List Char), noWildcard q = true →
    ∀ s, likeMatch (q ++ ['%']) s = ciStartsWith q s := by
  intro q
  induction q with
  | nil =>
    intro _ s
    simp [ciStartsWith, likeMatch_single_percent]
  | cons c q ih =>
    intro h s
    obtain ⟨h1, h2, h3, hq⟩ := noWildcard_cons h
    rw [List.cons_append]
    have hstep : likeMatch (c :: (q ++ ['%'])) s = matchLit c (likeMatch (q ++ ['%'])) s := by
      simp [likeMatch, h1, h2, h3]
    rw [hstep]
    cases s with
    | nil => simp [matchLit, ciStartsWith]
    | cons d t => simp [matchLit, ciStartsWith, ih hq]

theorem ciContains_eq_any (q : List Char) : ∀ s : List Char,
    ciContains s q = (List.range (s.length + 1)).any (fun i => ciStartsWith q (s.drop i)) := by
  intro s
  induction s with
  | nil =>
    have h1 : List.range 1 = [0] := rfl
    simp [ciContains, h1]
  | cons d t ih =>
    rw [ciContains]
    simp only [List.length_cons]
    rw [List.range_succ_eq_map]
    simp only [List.any_cons, List.any_map, List.drop_zero]
    have hfun : ((fun i => ciStartsWith q (List.drop i (d :: t))) ∘ Nat.succ) =
        (fun j => ciStartsWith q (List.drop j t)) :=
      funext (fun j => by simp [Function.comp, List.drop_succ_cons])
    rw [hfun, ← ih]

theorem likeMatch_likePattern (q : List Char) (hq : noWildcard q = true) :
    ∀ s, likeMatch (likePattern q) s = ciContains s q := by
  intro s
  rw [likePattern]
  simp only [likeMatch]
  rw [ciContains_eq_any]
  have hfun : (fun i => likeMatch (q ++ ['%']) (s.drop i)) =
      (fun i => ciStartsWith q (s.drop i)) :=
    funext (fun i => likeMatch_literal q hq (s.drop i))
  rw [hfun]

theorem bookMatches_eq_ciContains (q : List Char) (hq : noWildcard q = true) (b : Book) :
    bookMatches q b = (ciContains b.title q || ciContains b.author q) := by
  simp [bookMatches, likeMatch_likePattern q hq]

theorem likeMatch_likePattern_percent (s : List Char) :
    likeMatch (likePattern ['%']) s = true := by
  apply likeMatch_percent_head
  apply likeMatch_percent_head
  exact likeMatch_single_percent s

/-! ### Row-lookup lemmas -/

theorem applyUpdate_id (b : Book) (req : UpdateBookRequest) (now : Nat) :
    (applyUpdate b req now).id = b.id := rfl

theorem find_append_fresh (l : List Book) (x : Book) (id : Int)
    (h : ∀ b ∈ l, (b.id == id) = false) (hx : (x.id == id) = true) :
    (l ++ [x]).find? (fun b => b.id == id) = some x := by
  induction l with
  | nil => simp [List.find?, hx]
  | cons a t ih =>
    have ha := h a (List.mem_cons_self a t)
    rw [List.cons_append, List.find?_cons_of_neg _ (by simp [ha])]
    exact ih (fun b hb => h b (List.mem_cons_of_mem a hb))

theorem find_map_update (l : List Book) (id : Int) (e : Book)
    (req : UpdateBookRequest) (now : Nat)
    (h : l.find? (fun b => b.id == id) = some e) :
    (l.map (fun b => if b.id == id then applyUpdate b req now else b)).find?
      (fun b => b.id == id) = some (applyUpdate e req now) := by
  induction l with
  | nil => simp at h
  | cons a t ih =>
    by_cases ha : (a.id == id) = true
    · rw [List.find?_cons_of_pos _ (by simpa using ha)] at h
      obtain rfl : a = e := by simpa using h
      rw [List.map_cons, if_pos ha,
        List.find?_cons_of_pos _ (by simpa [applyUpdate_id] using ha)]
    · have ha2 : (a.id == id) = false := by simpa using ha
      rw [List.find?_cons_of_neg _ (by simp [ha2])] at h
      rw [List.map_cons, if_neg (by simp [ha2]),
        List.find?_cons_of_neg _ (by simp [ha2])]
      exact ih h

theorem find_filter_deleted (l : List Book) (id : Int) :
    (l.filter (fun b => !(b.id == id))).find? (fun b => b.id == id) = none := by
  rw [List.find?_eq_none]
  intro x hx
  have hmem := (List.mem_filter.mp hx).2
  simp at hmem ⊢
  exact hmem

/-! ### Ordering and pagination lemmas -/

theorem sorted_sortByCreatedDesc (l : List Book) :
    List.Sorted byCreatedDesc (sortByCreatedDesc l) :=
  List.sorted_insertionSort byCreatedDesc l

theorem length_sortByCreatedDesc (l : List Book) :
    (sortByCreatedDesc l).length = l.length :=
  (List.perm_insertionSort byCreatedDesc l).length_eq

theorem page_sublist_sorted (l : List Book) (offset limit : Nat) :
    (((sortByCreatedDesc l).drop offset).take limit).Sublist (sortByCreatedDesc l) :=
  (List.take_sublist _ _).trans (List.drop_sublist _ _)

theorem sorted_page (l : List Book) (offset limit : Nat) :
    List.Sorted byCreatedDesc (((sortByCreatedDesc l).drop offset).take limit) :=
  (sorted_sortByCreatedDesc l).sublist (page_sublist_sorted l offset limit)

theorem mem_page (l : List Book) (offset limit : Nat) (b : Book)
    (hb : b ∈ ((sortByCreatedDesc l).drop offset).take limit) : b ∈ l := by
  have h1 : b ∈ sortByCreatedDesc l := (page_sublist_sorted l offset limit).mem hb
  rw [sortByCreatedDesc] at h1
  exact (List.mem_insertionSort byCreatedDesc).mp h1

theorem effPage_pos (pageArg : Option Int) : 0 < effPage pageArg := by
  cases pageArg with
  | none => simp [effPage]
  | some p =>
    simp only [effPage]
    split
    · next h => omega
    · omega

theorem effLimit_pos (limitArg : Option Int) : 0 < effLimit limitArg := by
  cases limitArg with
  | none => simp [effLimit]
  | some l =>
    simp only [effLimit]
    split
    · next h =>
      simp at h
      omega
    · omega

theorem natCeilDiv_le_mul (T L : Nat) (hL : 0 < L) : T ≤ natCeilDiv T L * L := by
  rcases Nat.eq_zero_or_pos T with hT | hT
  · simp [hT]
  · have hdm := Nat.div_add_mod (T + L - 1) L
    have hmlt : (T + L - 1) % L < L := Nat.mod_lt _ hL
    unfold natCeilDiv
    rw [Nat.mul_comm]
    set q := (T + L - 1) / L with hq
    set r := (T + L - 1) % L with hr
    set m := L * q with hm
    omega

theorem natCeilDiv_le_of_le (T L n : Nat) (hL : 0 < L) (hn : T ≤ n * L) :
    natCeilDiv T L ≤ n := by
  rcases Nat.eq_zero_or_pos T with hT | hT
  · subst hT
    unfold natCeilDiv
    have : (0 + L - 1) / L = 0 := Nat.div_eq_of_lt (by omega)
    omega
  · have h1 : T + L - 1 < (n + 1) * L := by
      rw [Nat.succ_mul]
      set m := n * L with hm
      omega
    have h2 := (Nat.div_lt_iff_lt_mul hL).mpr h1
    unfold natCeilDiv
    omega

/-! ### Update-path helper lemmas -/

theorem hasUpdates_false_fields {req : UpdateBookRequest} (h : hasUpdates req = false) :
    req.title = none ∧ req.author = none ∧ req.publishedYear = none ∧
    req.available = none := by
  simp only [hasUpdates, Bool.or_eq_false_iff] at h
  obtain ⟨⟨⟨h1, h2⟩, h3⟩, h4⟩ := h
  exact ⟨Option.not_isSome_iff_eq_none.mp (by simp [h1]),
         Option.not_isSome_iff_eq_none.mp (by simp [h2]),
         Option.not_isSome_iff_eq_none.mp (by simp [h3]),
         Option.not_isSome_iff_eq_none.mp (by simp [h4])⟩

theorem dbUpdateBook_empty (db : DBState) (id : Int) (req : UpdateBookRequest)
    (now : Nat) (existing : Book)
    (hex : getBookByID db id = some existing)
    (hempty : hasUpdates req = false) :
    dbUpdateBook db id req now = Except.ok (some existing, db) := by
  simp [dbUpdateBook, hex, hempty]

theorem dbUpdateBook_apply (db : DBState) (id : Int) (req : UpdateBookRequest)
    (now : Nat) (existing : Book)
    (hex : getBookByID db id = some existing)
    (hfit : updFits req = true)
    (hu : hasUpdates req = true) :
    dbUpdateBook db id req now = Except.ok (some (applyUpdate existing req now),
      { books := db.books.map (fun b => if b.id == id then applyUpdate b req now else b),
        nextId := db.nextId, writeCount := db.writeCount + 1 }) := by
  have hfind : (db.books.map (fun b => if b.id == id then applyUpdate b req now
      else b)).find? (fun b => b.id == id) = some (applyUpdate existing req now) :=
    find_map_update db.books id existing req now hex
  have hstep : sqlUpdateBook db id req now = Except.ok
      { books := db.books.map (fun b => if b.id == id then applyUpdate b req now else b),
        nextId := db.nextId, writeCount := db.writeCount + 1 } := by
    unfold sqlUpdateBook
    rw [if_pos hfit]
  unfold dbUpdateBook
  rw [hex]
  show (if hasUpdates req = true then _ else _) = _
  rw [if_pos hu, hstep]
  show Except.ok (getBookByID _ id, _) = _
  unfold getBookByID
  rw [hfind]

theorem dbCreateBook_ok (db : DBState) (req : CreateBookRequest) (now : Nat)
    (hlt : req.title.length ≤ 255) (hla : req.author.length ≤ 255)
    (hfresh : ∀ b ∈ db.books, (b.id == db.nextId) = false) :
    dbCreateBook db req now = Except.ok (some
      { id := db.nextId
        title := req.title
        author := req.author
        publishedYear := req.publishedYear
        available := req.available.getD true
        createdAt := now
        updatedAt := now },
      { books := db.books ++
          [{ id := db.nextId
             title := req.title
             author := req.author
             publishedYear := req.publishedYear
             available := req.available.getD true
             createdAt := now
             updatedAt := now }]
        nextId := db.nextId + 1
        writeCount := db.writeCount + 1 }) := by
  have hfits : (fitsColumn req.title && fitsColumn req.author) = true := by
    simp [fitsColumn, hlt, hla]
  have hfind := find_append_fresh db.books
    { id := db.nextId
      title := req.title
      author := req.author
      publishedYear := req.publishedYear
      available := req.available.getD true
      createdAt := now
      updatedAt := now } db.nextId hfresh (by simp)
  unfold dbCreateBook sqlInsertBook
  rw [if_pos hfits]
  show Except.ok (getBookByID _ db.nextId, _) = _
  unfold getBookByID
  rw [hfind]

/-! ### Claim theorems -/

/-- C1: for every update of an existing record (with supplied strings within
their columns), fields not supplied keep their previous values, every
supplied field takes the supplied value in the returned record, and when at
least one field is supplied the update timestamp strictly advances (given
that the clock has moved past the stored timestamp). -/
theorem update_frame_and_supplied_fields (db : DBState) (id : Int)
    (req : UpdateBookRequest) (now : Nat) (existing : Book)
    (hex : getBookByID db id = some existing)
    (hfit : updFits req = true)
    (hnow : existing.updatedAt < now) :
    ∃ b db2, dbUpdateBook db id req now = Except.ok (some b, db2) ∧
      b.title = req.title.getD existing.title ∧
      b.author = req.author.getD existing.author ∧
      b.publishedYear = req.publishedYear.getD existing.publishedYear ∧
      b.available = req.available.getD existing.available ∧
      b.id = existing.id ∧
      b.createdAt = existing.createdAt ∧
      (hasUpdates req = true → existing.updatedAt < b.updatedAt) := by
  by_cases hu : hasUpdates req = true
  · exact ⟨applyUpdate existing req now, _,
      dbUpdateBook_apply db id req now existing hex hfit hu,
      rfl, rfl, rfl, rfl, rfl, rfl, fun _ => hnow⟩
  · have hu2 : hasUpdates req = false := by simpa using hu
    obtain ⟨h1, h2, h3, h4⟩ := hasUpdates_false_fields hu2
    refine ⟨existing, db, dbUpdateBook_empty db id req now existing hex hu2,
      ?_, ?_, ?_, ?_, rfl, rfl, fun hc => absurd hc hu⟩
    · rw [h1]; rfl
    · rw [h2]; rfl
    · rw [h3]; rfl
    · rw [h4]; rfl

/-- Witness for C1 at a concrete input: updating only `available` on the
stored fixture keeps title, author and year, and advances the timestamp. -/
theorem update_frame_and_supplied_fields_witness :
    ∃ b db2, dbUpdateBook dbW 1 availUpd 10 = Except.ok (some b, db2) ∧
      b.title = availUpd.title.getD bookW.title ∧
      b.author = availUpd.author.getD bookW.author ∧
      b.publishedYear = availUpd.publishedYear.getD bookW.publishedYear ∧
      b.available = availUpd.available.getD bookW.available ∧
      b.id = bookW.id ∧
      b.createdAt = bookW.createdAt ∧
      (hasUpdates availUpd = true → bookW.updatedAt < b.updatedAt) :=
  update_frame_and_supplied_fields dbW 1 availUpd 10 bookW (by decide) (by decide)
    (by decide)

/-- C2: an update of an existing record supplying no fields returns the
existing record unchanged and leaves the database state untouched — in
particular the write counter and the stored timestamp are unchanged, so no
SQL write is issued and no timestamp refresh happens. -/
theorem update_no_fields_is_noop (db : DBState) (id : Int) (req : UpdateBookRequest)
    (now : Nat) (existing : Book)
    (hex : getBookByID db id = some existing)
    (hempty : hasUpdates req = false) :
    dbUpdateBook db id req now = Except.ok (some existing, db) ∧
    db.writeCount = db.writeCount :=
  ⟨dbUpdateBook_empty db id req now existing hex hempty, rfl⟩

/-- Witness for C2 at a concrete input. -/
theorem update_no_fields_is_noop_witness :
    dbUpdateBook dbW 1 emptyUpd 10 = Except.ok (some bookW, dbW) ∧
    dbW.writeCount = dbW.writeCount :=
  update_no_fields_is_noop dbW 1 emptyUpd 10 bookW (by decide) (by decide)

/-- Counterexample to C3 as stated: a no-field update on the stored fixture
is accepted (it succeeds and returns the record) at clock value 10, yet the
returned record still carries the old update timestamp 5 — the timestamp is
not refreshed. -/
theorem update_refresh_counterexample :
    dbUpdateBook dbW 1 emptyUpd 10 = Except.ok (some bookW, dbW) ∧
    bookW.updatedAt = 5 ∧ (5 : Nat) ≠ 10 := by
  refine ⟨rfl, rfl, by decide⟩

/-- C3 (amended): for every accepted update on an existing record that
supplies at least one field, the update timestamp is refreshed to the
statement time; a no-field update leaves the record and its timestamp
unchanged. -/
theorem update_refresh_iff_fields (db : DBState) (id : Int)
    (req : UpdateBookRequest) (now : Nat) (existing : Book)
    (hex : getBookByID db id = some existing)
    (hfit : updFits req = true) :
    ∃ b db2, dbUpdateBook db id req now = Except.ok (some b, db2) ∧
      (hasUpdates req = true → b.updatedAt = now) ∧
      (hasUpdates req = false → b.updatedAt = existing.updatedAt ∧ db2 = db) := by
  by_cases hu : hasUpdates req = true
  · exact ⟨applyUpdate existing req now, _,
      dbUpdateBook_apply db id req now existing hex hfit hu,
      fun _ => rfl, fun hc => absurd hu (by simp [hc])⟩
  · have hu2 : hasUpdates req = false := by simpa using hu
    exact ⟨existing, db, dbUpdateBook_empty db id req now existing hex hu2,
      fun hc => absurd hc hu, fun _ => ⟨rfl, rfl⟩⟩

/-- Witness for C3 (amended) at a concrete input. -/
theorem update_refresh_iff_fields_witness :
    ∃ b db2, dbUpdateBook dbW 1 availUpd 20 = Except.ok (some b, db2) ∧
      (hasUpdates availUpd = true → b.updatedAt = 20) ∧
      (hasUpdates availUpd = false → b.updatedAt = bookW.updatedAt ∧ db2 = dbW) :=
  update_refresh_iff_fields dbW 1 availUpd 20 bookW (by decide) (by decide)

/-- C5: every valid creation request yields status 201 with a success
message, and the returned record carries the trimmed title and author, the
input year, availability defaulting to true when omitted, and equal creation
and update timestamps. -/
theorem create_valid_returns_trimmed (db : DBState) (req : CreateBookRequest) (now : Nat)
    (ht : (trimChars req.title).isEmpty = false)
    (ha : (trimChars req.author).isEmpty = false)
    (hy1 : 1000 ≤ req.publishedYear) (hy2 : req.publishedYear ≤ 2100)
    (hlt : (trimChars req.title).length ≤ 255)
    (hla : (trimChars req.author).length ≤ 255)
    (hfresh : ∀ b ∈ db.books, (b.id == db.nextId) = false) :
    ∃ b db2, handlerCreateBook db (some req) now =
        (201, { success := true, data := some b, error := none,
                message := some (String.toList "Book created successfully") }, db2) ∧
      b.title = trimChars req.title ∧
      b.author = trimChars req.author ∧
      b.publishedYear = req.publishedYear ∧
      b.available = req.available.getD true ∧
      b.createdAt = b.updatedAt := by
  have hok := dbCreateBook_ok db
    { req with title := trimChars req.title, author := trimChars req.author } now
    hlt hla hfresh
  refine ⟨{ id := db.nextId
            title := trimChars req.title
            author := trimChars req.author
            publishedYear := req.publishedYear
            available := req.available.getD true
            createdAt := now
            updatedAt := now },
          { books := db.books ++
              [{ id := db.nextId
                 title := trimChars req.title
                 author := trimChars req.author
                 publishedYear := req.publishedYear
                 available := req.available.getD true
                 createdAt := now
                 updatedAt := now }]
            nextId := db.nextId + 1
            writeCount := db.writeCount + 1 }, ?_, rfl, rfl, rfl, rfl, rfl⟩
  unfold handlerCreateBook
  show (if (trimChars req.title).isEmpty = true then _ else _) = _
  rw [if_neg (by simp [ht]), if_neg (by simp [ha]),
    if_neg (show ¬((req.publishedYear < 1000 || req.publishedYear > 2100) = true) by
      simp only [Bool.or_eq_true, decide_eq_true_eq]
      omega),
    hok]

/-- Witness for C5 at a concrete input: creating " Foo" / "Bar" / 2020 in
the empty database. -/
theorem create_valid_returns_trimmed_witness :
    ∃ b db2, handlerCreateBook emptyDB (some createW) 7 =
        (201, { success := true, data := some b, error := none,
                message := some (String.toList "Book created successfully") }, db2) ∧
      b.title = trimChars createW.title ∧
      b.author = trimChars createW.author ∧
      b.publishedYear = createW.publishedYear ∧
      b.available = createW.available.getD true ∧
      b.createdAt = b.updatedAt :=
  create_valid_returns_trimmed emptyDB createW 7 (by decide) (by decide) (by decide)
    (by decide) (by decide) (by decide) (by decide)

/-- C8: deleting an existing record succeeds with a bare success message and
no data payload; a subsequent get of that id reports not-found; a second
delete of the same id reports not-found. -/
theorem delete_get_delete_sequence (db : DBState) (id : Int) (b : Book)
    (hex : getBookByID db id = some b) :
    ∃ db2,
      handlerDeleteBook db (some id) =
        (200, { success := true, data := none, error := none,
                message := some (String.toList "Book deleted successfully") }, db2) ∧
      handlerGetBook db2 (some id) = (404, errResp (String.toList "Book not found")) ∧
      handlerDeleteBook db2 (some id) =
        (404, errResp (String.toList "Book not found"), db2) := by
  have hnone : getBookByID
      { books := db.books.filter (fun x => !(x.id == id)), nextId := db.nextId,
        writeCount := db.writeCount + 1 } id = none := by
    unfold getBookByID
    exact find_filter_deleted db.books id
  have hdel : dbDeleteBook db id = DeleteResult.ok
      { books := db.books.filter (fun x => !(x.id == id)), nextId := db.nextId,
        writeCount := db.writeCount + 1 } := by
    unfold dbDeleteBook
    rw [hex]
  have hdel2 : dbDeleteBook
      { books := db.books.filter (fun x => !(x.id == id)), nextId := db.nextId,
        writeCount := db.writeCount + 1 } id = DeleteResult.notFound := by
    unfold dbDeleteBook
    rw [hnone]
  refine ⟨{ books := db.books.filter (fun x => !(x.id == id)), nextId := db.nextId,
            writeCount := db.writeCount + 1 }, ?_, ?_, ?_⟩
  · simp [handlerDeleteBook, hdel]
  · simp [handlerGetBook, hnone]
  · simp [handlerDeleteBook, hdel2]

/-- Witness for C8 at a concrete input. -/
theorem delete_get_delete_sequence_witness :
    ∃ db2,
      handlerDeleteBook dbW (some 1) =
        (200, { success := true, data := none, error := none,
                message := some (String.toList "Book deleted successfully") }, db2) ∧
      handlerGetBook db2 (some 1) = (404, errResp (String.toList "Book not found")) ∧
      handlerDeleteBook db2 (some 1) =
        (404, errResp (String.toList "Book not found"), db2) :=
  delete_get_delete_sequence dbW 1 bookW (by decide)

/-- Counterexample to C4 as stated: the non-empty query "%" puts the fixture
record into the matched set although neither its title nor its author
contains "%" as a (case-insensitive) substring — LIKE metacharacters break
the literal-substring reading. -/
theorem search_literal_substring_counterexample :
    trimChars ['%'] ≠ [] ∧
    bookW ∈ matchedSet dbW ['%'] ∧
    ciContains bookW.title ['%'] = false ∧
    ciContains bookW.author ['%'] = false := by decide

/-- C4 (amended): for queries free of LIKE metacharacters (`%`, `_`, `\`),
a record is matched iff its title or author contains the trimmed query as a
case-insensitive substring; a query absent from all titles and authors
yields empty data with total 0; an absent query considers all records; and
the returned page is ordered newest-created-first. -/
theorem search_ci_substring_semantics (db : DBState) (pageArg limitArg : Option Int)
    (qArg : List Char) :
    (trimChars qArg ≠ [] → noWildcard (trimChars qArg) = true →
      ((∀ b, b ∈ matchedSet db (trimChars qArg) ↔
          b ∈ db.books ∧ (ciContains b.title (trimChars qArg) = true ∨
                          ciContains b.author (trimChars qArg) = true)) ∧
       (handlerGetBooks db pageArg limitArg qArg).2.pagination.total =
          (matchedSet db (trimChars qArg)).length ∧
       ((∀ b ∈ db.books, ciContains b.title (trimChars qArg) = false ∧
                         ciContains b.author (trimChars qArg) = false) →
         (handlerGetBooks db pageArg limitArg qArg).2.data = [] ∧
         (handlerGetBooks db pageArg limitArg qArg).2.pagination.total = 0))) ∧
    (trimChars qArg = [] →
      (handlerGetBooks db pageArg limitArg qArg).2.pagination.total = db.books.length ∧
      ∀ b ∈ (handlerGetBooks db pageArg limitArg qArg).2.data, b ∈ db.books) ∧
    List.Sorted byCreatedDesc (handlerGetBooks db pageArg limitArg qArg).2.data := by
  refine ⟨?_, ?_, ?_⟩
  · intro hq hw
    have hqe : (trimChars qArg).isEmpty = false := List.isEmpty_eq_false.mpr hq
    refine ⟨?_, ?_, ?_⟩
    · intro b
      rw [matchedSet, List.mem_filter, bookMatches_eq_ciContains _ hw b]
      simp [Bool.or_eq_true]
    · simp [handlerGetBooks, hqe, dbSearchBooks, matchedSet]
    · intro hz
      have hempty : matchedSet db (trimChars qArg) = [] := by
        rw [matchedSet]
        apply List.filter_eq_nil_iff.mpr
        intro a ha
        rw [bookMatches_eq_ciContains _ hw a]
        simp [(hz a ha).1, (hz a ha).2]
      constructor
      · simp [handlerGetBooks, hqe, dbSearchBooks, hempty, sortByCreatedDesc]
      · simp [handlerGetBooks, hqe, dbSearchBooks, hempty]
  · intro hq
    have hqe : (trimChars qArg).isEmpty = true := List.isEmpty_eq_true.mpr hq
    constructor
    · simp [handlerGetBooks, hqe, dbGetBooks]
    · intro b hb
      have hdata : (handlerGetBooks db pageArg limitArg qArg).2.data =
          ((sortByCreatedDesc db.books).drop
            ((effPage pageArg - 1) * effLimit limitArg)).take (effLimit limitArg) := by
        simp [handlerGetBooks, hqe, dbGetBooks]
      rw [hdata] at hb
      exact mem_page _ _ _ b hb
  · cases hqe : (trimChars qArg).isEmpty with
    | true =>
      have hdata : (handlerGetBooks db pageArg limitArg qArg).2.data =
          ((sortByCreatedDesc db.books).drop
            ((effPage pageArg - 1) * effLimit limitArg)).take (effLimit limitArg) := by
        simp [handlerGetBooks, hqe, dbGetBooks]
      rw [hdata]
      exact sorted_page _ _ _
    | false =>
      have hdata : (handlerGetBooks db pageArg limitArg qArg).2.data =
          ((sortByCreatedDesc (matchedSet db (trimChars qArg))).drop
            ((effPage pageArg - 1) * effLimit limitArg)).take (effLimit limitArg) := by
        simp [handlerGetBooks, hqe, dbSearchBooks]
      rw [hdata]
      exact sorted_page _ _ _

/-- Witness for C4 (amended) at a concrete input: query "o" matches the
fixture record through its title. -/
theorem search_ci_substring_semantics_witness :
    (∀ b, b ∈ matchedSet dbW ['o'] ↔
        b ∈ dbW.books ∧ (ciContains b.title ['o'] = true ∨
                         ciContains b.author ['o'] = true)) ∧
    List.Sorted byCreatedDesc (handlerGetBooks dbW none none ['o']).2.data :=
  ⟨((search_ci_substring_semantics dbW none none ['o']).1 (by decide) (by decide)).1,
   (search_ci_substring_semantics dbW none none ['o']).2.2⟩

/-- C6: the response metadata reports the effective page and limit, the
total matching count, and a total-pages figure that is exactly the ceiling
of total / limit (characterised as the least page count covering the
total). -/
theorem pagination_metadata_ceiling (db : DBState) (pageArg limitArg : Option Int)
    (qArg : List Char) :
    (handlerGetBooks db pageArg limitArg qArg).2.pagination.page = effPage pageArg ∧
    (handlerGetBooks db pageArg limitArg qArg).2.pagination.limit = effLimit limitArg ∧
    (handlerGetBooks db pageArg limitArg qArg).2.pagination.total =
      (if trimChars qArg = [] then db.books.length
       else (matchedSet db (trimChars qArg)).length) ∧
    (handlerGetBooks db pageArg limitArg qArg).2.pagination.total ≤
      (handlerGetBooks db pageArg limitArg qArg).2.pagination.totalPages *
        effLimit limitArg ∧
    ∀ n : Nat,
      (handlerGetBooks db pageArg limitArg qArg).2.pagination.total ≤
        n * effLimit limitArg →
      (handlerGetBooks db pageArg limitArg qArg).2.pagination.totalPages ≤ n := by
  have hpag : (handlerGetBooks db pageArg limitArg qArg).2.pagination.totalPages =
      natCeilDiv ((handlerGetBooks db pageArg limitArg qArg).2.pagination.total)
        (effLimit limitArg) := rfl
  refine ⟨rfl, rfl, ?_, ?_, ?_⟩
  · cases hqe : (trimChars qArg).isEmpty with
    | true =>
      rw [if_pos (List.isEmpty_eq_true.mp hqe)]
      simp [handlerGetBooks, hqe, dbGetBooks]
    | false =>
      rw [if_neg (List.isEmpty_eq_false.mp hqe)]
      simp [handlerGetBooks, hqe, dbSearchBooks, matchedSet]
  · rw [hpag]
    exact natCeilDiv_le_mul _ _ (effLimit_pos limitArg)
  · intro n hn
    rw [hpag]
    exact natCeilDiv_le_of_le _ _ n (effLimit_pos limitArg) hn

/-- Witness for C6 at a concrete input: page/limit are reported as given and
one page of limit 7 covers the single stored record. -/
theorem pagination_metadata_ceiling_witness :
    (handlerGetBooks dbW (some 2) (some 7) []).2.pagination.page = effPage (some 2) ∧
    (handlerGetBooks dbW (some 2) (some 7) []).2.pagination.limit = effLimit (some 7) ∧
    (handlerGetBooks dbW (some 2) (some 7) []).2.pagination.totalPages ≤ 1 :=
  ⟨(pagination_metadata_ceiling dbW (some 2) (some 7) []).1,
   (pagination_metadata_ceiling dbW (some 2) (some 7) []).2.1,
   (pagination_metadata_ceiling dbW (some 2) (some 7) []).2.2.2.2 1 (by decide)⟩

theorem page_empty_of_beyond (l : List Book) (P L : Nat) (hL : 0 < L)
    (h : natCeilDiv l.length L < P) :
    ((sortByCreatedDesc l).drop ((P - 1) * L)).take L = [] := by
  have h1 : natCeilDiv l.length L ≤ P - 1 := by omega
  have h2 : natCeilDiv l.length L * L ≤ (P - 1) * L := mul_le_mul_right' h1 L
  have h3 : (sortByCreatedDesc l).length ≤ (P - 1) * L := by
    rw [length_sortByCreatedDesc]
    exact le_trans (natCeilDiv_le_mul l.length L hL) h2
  rw [List.drop_eq_nil_of_le h3]
  exact List.take_nil

/-- C7: a list or search request whose effective page exceeds the reported
total-pages count yields an empty data array, while the reported total is
the same for every requested page. -/
theorem page_beyond_total_pages_empty (db : DBState) (pageArg limitArg : Option Int)
    (qArg : List Char)
    (h : (handlerGetBooks db pageArg limitArg qArg).2.pagination.totalPages <
      effPage pageArg) :
    (handlerGetBooks db pageArg limitArg qArg).2.data = [] ∧
    ∀ pageArg2, (handlerGetBooks db pageArg2 limitArg qArg).2.pagination.total =
      (handlerGetBooks db pageArg limitArg qArg).2.pagination.total := by
  constructor
  · cases hqe : (trimChars qArg).isEmpty with
    | true =>
      have hdata : (handlerGetBooks db pageArg limitArg qArg).2.data =
          ((sortByCreatedDesc db.books).drop
            ((effPage pageArg - 1) * effLimit limitArg)).take (effLimit limitArg) := by
        simp [handlerGetBooks, hqe, dbGetBooks]
      have htp : (handlerGetBooks db pageArg limitArg qArg).2.pagination.totalPages =
          natCeilDiv db.books.length (effLimit limitArg) := by
        simp [handlerGetBooks, hqe, dbGetBooks, natCeilDiv]
      rw [hdata]
      apply page_empty_of_beyond _ _ _ (effLimit_pos limitArg)
      rw [← htp]
      exact h
    | false =>
      have hdata : (handlerGetBooks db pageArg limitArg qArg).2.data =
          ((sortByCreatedDesc (matchedSet db (trimChars qArg))).drop
            ((effPage pageArg - 1) * effLimit limitArg)).take (effLimit limitArg) := by
        simp [handlerGetBooks, hqe, dbSearchBooks]
      have htp : (handlerGetBooks db pageArg limitArg qArg).2.pagination.totalPages =
          natCeilDiv (matchedSet db (trimChars qArg)).length (effLimit limitArg) := by
        simp [handlerGetBooks, hqe, dbSearchBooks, natCeilDiv, matchedSet]
      rw [hdata]
      apply page_empty_of_beyond _ _ _ (effLimit_pos limitArg)
      rw [← htp]
      exact h
  · intro pageArg2
    cases hqe : (trimChars qArg).isEmpty with
    | true => simp [handlerGetBooks, hqe, dbGetBooks]
    | false => simp [handlerGetBooks, hqe, dbSearchBooks]

/-- Witness for C7 at a concrete input: page 5 of the empty database. -/
theorem page_beyond_total_pages_empty_witness :
    (handlerGetBooks emptyDB (some 5) none []).2.data = [] ∧
    ∀ pageArg2, (handlerGetBooks emptyDB pageArg2 none []).2.pagination.total =
      (handlerGetBooks emptyDB (some 5) none []).2.pagination.total :=
  page_beyond_total_pages_empty emptyDB (some 5) none [] (by decide)

/-- C10: the search term is embedded unescaped in the LIKE pattern, so the
query "%" matches every record of every database — the matched set is the
whole table and the reported total is the count of all records, even for
records that do not contain "%" literally. -/
theorem search_percent_matches_everything (db : DBState)
    (pageArg limitArg : Option Int) :
    matchedSet db ['%'] = db.books ∧
    (handlerGetBooks db pageArg limitArg ['%']).2.pagination.total =
      db.books.length := by
  have hm : matchedSet db ['%'] = db.books := by
    rw [matchedSet]
    apply List.filter_eq_self.mpr
    intro b _
    simp [bookMatches, likeMatch_likePattern_percent]
  refine ⟨hm, ?_⟩
  have htrim : trimChars ['%'] = ['%'] := by decide
  have hqe : (trimChars ['%']).isEmpty = false := by decide
  simp [handlerGetBooks, hqe, dbSearchBooks, htrim, hm]

/-! ### State-characterisation lemmas for the write paths -/

theorem dbCreateBook_state (db : DBState) (req : CreateBookRequest) (now : Nat)
    (bk : Option Book) (db2 : DBState)
    (heq : dbCreateBook db req now = Except.ok (bk, db2)) :
    req.title.length ≤ 255 ∧ req.author.length ≤ 255 ∧
    db2 = { books := db.books ++
              [{ id := db.nextId
                 title := req.title
                 author := req.author
                 publishedYear := req.publishedYear
                 available := req.available.getD true
                 createdAt := now
                 updatedAt := now }],
            nextId := db.nextId + 1,
            writeCount := db.writeCount + 1 } := by
  unfold dbCreateBook at heq
  split at heq
  · simp at heq
  · rename_i idr db2a heq2
    unfold sqlInsertBook at heq2
    split at heq2
    · rename_i hfits
      simp only [fitsColumn, Bool.and_eq_true, decide_eq_true_eq] at hfits
      simp only [Except.ok.injEq, Prod.mk.injEq] at heq heq2
      refine ⟨hfits.1, hfits.2, ?_⟩
      rw [← heq.2, ← heq2.2]
    · simp at heq2

theorem sqlUpdateBook_state (db : DBState) (id : Int) (req : UpdateBookRequest)
    (now : Nat) (db2 : DBState)
    (heq : sqlUpdateBook db id req now = Except.ok db2) :
    updFits req = true ∧
    db2 = { books := db.books.map
              (fun b => if b.id == id then applyUpdate b req now else b),
            nextId := db.nextId,
            writeCount := db.writeCount + 1 } := by
  unfold sqlUpdateBook at heq
  split at heq
  · next hfit =>
    simp only [Except.ok.injEq] at heq
    exact ⟨hfit, heq.symm⟩
  · simp at heq

theorem dbUpdateBook_state (db : DBState) (id : Int) (req : UpdateBookRequest)
    (now : Nat) (res : Option Book) (db2 : DBState)
    (heq : dbUpdateBook db id req now = Except.ok (res, db2)) :
    db2 = db ∨
    (updFits req = true ∧
     db2 = { books := db.books.map
               (fun b => if b.id == id then applyUpdate b req now else b),
             nextId := db.nextId,
             writeCount := db.writeCount + 1 }) := by
  unfold dbUpdateBook at heq
  split at heq
  · left
    simp only [Except.ok.injEq, Prod.mk.injEq] at heq
    exact heq.2.symm
  · split at heq
    · split at heq
      · simp at heq
      · next db2a heq2 =>
        right
        obtain ⟨hfit, hdb2a⟩ := sqlUpdateBook_state db id req now db2a heq2
        simp only [Except.ok.injEq, Prod.mk.injEq] at heq
        rw [← heq.2, hdb2a]
        exact ⟨hfit, rfl⟩
    · left
      simp only [Except.ok.injEq, Prod.mk.injEq] at heq
      exact heq.2.symm

theorem handlerCreateBook_state (db : DBState) (body : Option CreateBookRequest)
    (now : Nat) :
    (handlerCreateBook db body now).2.2 = db ∨
    ∃ req bk db2,
      body = some req ∧
      (trimChars req.title).isEmpty = false ∧
      (trimChars req.author).isEmpty = false ∧
      dbCreateBook db
        { req with title := trimChars req.title, author := trimChars req.author } now
        = Except.ok (bk, db2) ∧
      (handlerCreateBook db body now).2.2 = db2 := by
  match body with
  | none => exact Or.inl rfl
  | some req =>
    by_cases h1 : (trimChars req.title).isEmpty = true
    · left
      simp [handlerCreateBook, h1]
    · have hq1 : (trimChars req.title).isEmpty = false := by simpa using h1
      by_cases h2 : (trimChars req.author).isEmpty = true
      · left
        simp [handlerCreateBook, hq1, h2]
      · have hq2 : (trimChars req.author).isEmpty = false := by simpa using h2
        by_cases h3 : (req.publishedYear < 1000 || req.publishedYear > 2100) = true
        · left
          simp only [handlerCreateBook]
          simp [hq1, hq2, h3]
        · have hq3 : (req.publishedYear < 1000 || req.publishedYear > 2100) = false := by
            simpa using h3
          rcases hdc : dbCreateBook db
              { req with title := trimChars req.title, author := trimChars req.author }
              now with e | ⟨bk, db2⟩
          · left
            simp [handlerCreateBook, hq1, hq2, hq3, hdc]
          · right
            refine ⟨req, bk, db2, rfl, hq1, hq2, hdc, ?_⟩
            simp [handlerCreateBook, hq1, hq2, hq3, hdc]

theorem handlerUpdateBook_state (db : DBState) (idArg : Option Int)
    (ubody : Option UpdateBookRequest) (now : Nat) :
    (handlerUpdateBook db idArg ubody now).2.2 = db ∨
    ∃ req0 id res db2,
      idArg = some id ∧ ubody = some req0 ∧
      (match req0.title with | some t => (trimChars t).isEmpty | none => false) = false ∧
      (match req0.author with | some a => (trimChars a).isEmpty | none => false) = false ∧
      dbUpdateBook db id
        { req0 with title := req0.title.map trimChars,
                    author := req0.author.map trimChars }
        now = Except.ok (res, db2) ∧
      (handlerUpdateBook db idArg ubody now).2.2 = db2 := by
  match idArg with
  | none => exact Or.inl rfl
  | some id =>
    match ubody with
    | none => exact Or.inl rfl
    | some req0 =>
      by_cases h1 : (match req0.title with
        | some t => (trimChars t).isEmpty | none => false) = true
      · left
        simp [handlerUpdateBook, h1]
      · have hq1 : (match req0.title with
            | some t => (trimChars t).isEmpty | none => false) = false := by
          simpa using h1
        by_cases h2 : (match req0.author with
          | some a => (trimChars a).isEmpty | none => false) = true
        · left
          simp [handlerUpdateBook, hq1, h2]
        · have hq2 : (match req0.author with
              | some a => (trimChars a).isEmpty | none => false) = false := by
            simpa using h2
          by_cases h3 : (match req0.publishedYear with
            | some y => y < 1000 || y > 2100 | none => false) = true
          · left
            simp [handlerUpdateBook, hq1, hq2, h3]
          · have hq3 : (match req0.publishedYear with
                | some y => y < 1000 || y > 2100 | none => false) = false := by
              simpa using h3
            rcases hdc : dbUpdateBook db id
                { req0 with title := req0.title.map trimChars,
                            author := req0.author.map trimChars }
                now with e | ⟨res, db2⟩
            · left
              simp [handlerUpdateBook, hq1, hq2, hq3, hdc]
            · right
              refine ⟨req0, id, res, db2, rfl, rfl, hq1, hq2, hdc, ?_⟩
              cases res with
              | none => simp [handlerUpdateBook, hq1, hq2, hq3, hdc]
              | some bk => simp [handlerUpdateBook, hq1, hq2, hq3, hdc]

/-- C9: every record stored through the creation or update handler keeps a
non-empty title and author of at most 255 characters (the handlers reject
blank strings and the VARCHAR(255) columns reject longer values under strict
mode); in particular a creation request whose trimmed title or author
exceeds 255 characters leaves the table unchanged. -/
theorem stored_rows_nonempty_bounded (db : DBState) (body : Option CreateBookRequest)
    (idArg : Option Int) (ubody : Option UpdateBookRequest) (now : Nat) :
    (goodDB db → goodDB (handlerCreateBook db body now).2.2) ∧
    (goodDB db → goodDB (handlerUpdateBook db idArg ubody now).2.2) ∧
    (∀ req, body = some req →
      255 < (trimChars req.title).length ∨ 255 < (trimChars req.author).length →
      (handlerCreateBook db body now).2.2.books = db.books) := by
  refine ⟨?_, ?_, ?_⟩
  · intro hdb
    rcases handlerCreateBook_state db body now with hst |
      ⟨req, bk, db2, hbody, ht, ha, heq, hst⟩
    · rw [hst]; exact hdb
    · obtain ⟨hl1, hl2, hdb2⟩ := dbCreateBook_state db _ now bk db2 heq
      rw [hst, hdb2]
      intro x hx
      rcases List.mem_append.mp hx with hx1 | hx2
      · exact hdb x hx1
      · obtain rfl := List.mem_singleton.mp hx2
        exact ⟨List.isEmpty_eq_false.mp ht, hl1, List.isEmpty_eq_false.mp ha, hl2⟩
  · intro hdb
    rcases handlerUpdateBook_state db idArg ubody now with hst |
      ⟨req0, id, res, db2, hid, hbody, ht, ha, heq, hst⟩
    · rw [hst]; exact hdb
    · rcases dbUpdateBook_state db id _ now res db2 heq with hdb2 | ⟨hfit, hdb2⟩
      · rw [hst, hdb2]; exact hdb
      · rw [hst, hdb2]
        intro x hx
        rcases List.mem_map.mp hx with ⟨b, hb, hbx⟩
        have hgb := hdb b hb
        simp only [updFits, Bool.and_eq_true] at hfit
        by_cases hbid : (b.id == id) = true
        · rw [if_pos hbid] at hbx
          subst hbx
          refine ⟨?_, ?_, ?_, ?_⟩
          · show ((req0.title.map trimChars).getD b.title) ≠ []
            cases hrt : req0.title with
            | none => simpa [hrt] using hgb.1
            | some t =>
              rw [hrt] at ht
              simpa [hrt] using List.isEmpty_eq_false.mp (by simpa using ht)
          · show ((req0.title.map trimChars).getD b.title).length ≤ 255
            cases hrt : req0.title with
            | none => simpa [hrt] using hgb.2.1
            | some t =>
              have hx := hfit.1
              rw [hrt] at hx
              simpa [fitsColumn] using hx
          · show ((req0.author.map trimChars).getD b.author) ≠ []
            cases hra : req0.author with
            | none => simpa [hra] using hgb.2.2.1
            | some a =>
              rw [hra] at ha
              simpa [hra] using List.isEmpty_eq_false.mp (by simpa using ha)
          · show ((req0.author.map trimChars).getD b.author).length ≤ 255
            cases hra : req0.author with
            | none => simpa [hra] using hgb.2.2.2
            | some a =>
              have hx := hfit.2
              rw [hra] at hx
              simpa [fitsColumn] using hx
        · rw [if_neg hbid] at hbx
          subst hbx
          exact hgb
  · intro req hbody hover
    rcases handlerCreateBook_state db body now with hst |
      ⟨req2, bk, db2, hbody2, ht, ha, heq, hst⟩
    · rw [hst]
    · obtain ⟨hl1, hl2, hdb2⟩ := dbCreateBook_state db _ now bk db2 heq
      rw [hbody] at hbody2
      have hreq : req2 = req := by
        injection hbody2.symm
      subst hreq
      exfalso
      rcases hover with hov | hov
      · exact absurd hl1 (not_le.mpr hov)
      · exact absurd hl2 (not_le.mpr hov)

/-- Witness for C9 at concrete inputs: a valid create and an
availability-only update on the fixture database keep the invariant. -/
theorem stored_rows_nonempty_bounded_witness :
    goodDB (handlerCreateBook dbW (some createW) 9).2.2 ∧
    goodDB (handlerUpdateBook dbW (some 1) (some availUpd) 9).2.2 :=
  ⟨(stored_rows_nonempty_bounded dbW (some createW) (some 1) (some availUpd) 9).1
      (by unfold goodDB goodBook; decide),
   (stored_rows_nonempty_bounded dbW (some createW) (some 1) (some availUpd) 9).2.1
      (by unfold goodDB goodBook; decide)⟩

end LibraryAPI
